import Mathlib

/-!
Shallow embedding of `src/train.py` (Florence-2 fine-tuning script).

The script wires external collaborators (model, processor/tokenizer,
optimizer, scheduler) around a training loop.  Pure control logic is
translated directly; the external collaborators (forward pass, optimizer
update, generation, decoding, post-processing) are abstracted as fields of
an `Ops` record, and everything the script prints or writes to disk is
recorded as a trace of `Event`s in the run state.
-/

namespace Florence2

/-- Slice cut point of `data_split` (train.py line 33):
`split_index = len(data) - len(data)//10`. -/
def split_index {A : Type} (data : List A) : Nat :=
  data.length - data.length / 10

/-- Embedding of `data_split` (train.py lines 32-34):
`return data[:split_index], data[split_index:]`. -/
def data_split {A : Type} (data : List A) : List A × List A :=
  (data.take (split_index data), data.drop (split_index data))

/-- Items a checkpoint directory may contain.  The script serializes only
model and processor state (train.py lines 170-171); optimizer and scheduler
constructors exist so their absence is expressible. -/
inductive SavedItem : Type
  | model : SavedItem
  | processor : SavedItem
  | optimizer : SavedItem
  | scheduler : SavedItem
deriving DecidableEq

/-- One checkpoint write (train.py lines 167-171): `os.makedirs(output_dir,
exist_ok=True)` followed by `model.save_pretrained` and
`processor.save_pretrained`. -/
structure Checkpoint : Type where
  dir : String
  parents : Bool
  existOk : Bool
  saved : List SavedItem
deriving DecidableEq

/-- Observable events of the run: console prints and checkpoint writes. -/
inductive Event : Type
  | printLoss : ℚ → Event
  | printGT : String → Event
  | printPred : String → Event
  | avgTrainLoss : ℚ → Event
  | avgValLoss : ℚ → Event
  | checkpoint : Checkpoint → Event
deriving DecidableEq

/-- A collated batch: the encoded inputs (input_ids + pixel_values,
abstracted as `I`) and the raw answer strings passed through by
`collate_fn` (train.py lines 25-30). -/
structure Batch (I : Type) : Type where
  inputs : I
  answers : List String
deriving DecidableEq

/-- Mutable state of the run: model parameters `P`, optimizer state `O`,
counters of optimizer/scheduler steps, the train/eval mode flag, and the
event trace. -/
structure RunState (P O : Type) : Type where
  params : P
  opt : O
  optSteps : Nat
  schedSteps : Nat
  mode : Bool
  events : List Event
deriving DecidableEq

/-- External collaborators of the script, abstracted: text tokenizer and its
pad token id, model forward pass returning the scalar loss, the combined
`loss.backward(); optimizer.step()` parameter/optimizer update, beam-search
generation (arguments: params, inputs, max_new_tokens, num_beams), batch
decoding (argument: skip_special_tokens), and caption post-processing
(arguments: text, task tag, image size). -/
structure Ops (P O I : Type) : Type where
  tokenize : String → List Nat
  padTok : Nat
  forward : P → I → List (List Nat) → ℚ
  optStep : P → O → ℚ → P × O
  generate : P → I → Nat → Nat → List (List Nat)
  batch_decode : List (List Nat) → Bool → List String
  post_process_generation : String → String → Nat × Nat → String
  pixelShape : I → Nat × Nat

/-- Longest tokenized row of a batch of answers; `padding=True` pads every
row to this length. -/
def maxRowLen (tokenize : String → List Nat) (answers : List String) : Nat :=
  (answers.map tokenize).foldr (fun r m => max r.length m) 0

/-- Pad one tokenized row to `maxLen` with the pad token. -/
def padRow (padTok : Nat) (maxLen : Nat) (row : List Nat) : List Nat :=
  row ++ List.replicate (maxLen - row.length) padTok

/-- Embedding of `processor.tokenizer(text=answers, return_tensors="pt",
padding=True, ...).input_ids` (train.py lines 92-97): each answer is
tokenized and padded to the longest row with the tokenizer's pad token. -/
def tokenizer_pad (tokenize : String → List Nat) (padTok : Nat)
    (answers : List String) : List (List Nat) :=
  (answers.map tokenize).map (padRow padTok (maxRowLen tokenize answers))

/-- The per-batch loss: label encoding of the raw answers followed by the
model forward pass (train.py lines 92-102, identical code at 150-160). -/
def batchLoss {P O I : Type} (ops : Ops P O I) (p : P) (b : Batch I) : ℚ :=
  ops.forward p b.inputs (tokenizer_pad ops.tokenize ops.padTok b.answers)

/-- Task tag used in `post_process_generation` (train.py line 120). -/
def taskTag : String := "<MORE_DETAILED_DANBOORU_CAPTION>"

/-- Print events of the `for generated_text, answer in zip(...)` loop
(train.py lines 117-127): for each (generated text, answer) pair, print the
ground truth, then the post-processed prediction. -/
def gtPredEvents {P O I : Type} (ops : Ops P O I) (shape : Nat × Nat) :
    List (String × String) → List Event
  | [] => []
  | ga :: rest =>
      Event.printGT ga.2 ::
        Event.printPred (ops.post_process_generation ga.1 taskTag shape) ::
          gtPredEvents ops shape rest

/-- Events of the diagnostic branch (train.py lines 104-127): print the
loss, generate with `max_new_tokens=1024, num_beams=3`, decode with
`skip_special_tokens=False`, then print GT and prediction per sample. -/
def diagEvents {P O I : Type} (ops : Ops P O I) (p : P) (b : Batch I)
    (loss : ℚ) : List Event :=
  Event.printLoss loss ::
    gtPredEvents ops (ops.pixelShape b.inputs)
      ((ops.batch_decode (ops.generate p b.inputs 1024 3) false).zip b.answers)

/-- One training iteration (train.py lines 86-134): compute the loss, run
the diagnostic branch when `i % 200 == 0`, then backward / optimizer step /
scheduler step / zero_grad, returning the new state and the scalar loss
that is accumulated into the epoch total. -/
def trainBatchStep {P O I : Type} (ops : Ops P O I) (i : Nat)
    (st : RunState P O) (b : Batch I) : RunState P O × ℚ :=
  let loss := batchLoss ops st.params b
  let evs := if i % 200 = 0 then diagEvents ops st.params b loss else []
  let po := ops.optStep st.params st.opt loss
  ({ st with
      params := po.1
      opt := po.2
      optSteps := st.optSteps + 1
      schedSteps := st.schedSteps + 1
      events := st.events ++ evs }, loss)

/-- The training loop of one epoch (train.py lines 84-134), carrying the
within-epoch batch index `i` and the accumulated `train_loss`.  In the
source `i` starts at `-1` and is incremented at the top of the body, so the
body sees indices 0, 1, 2, ...; the embedding passes those indices
directly. -/
def trainEpochGo {P O I : Type} (ops : Ops P O I) :
    Nat → RunState P O → ℚ → List (Batch I) → RunState P O × ℚ
  | _, st, acc, [] => (st, acc)
  | i, st, acc, b :: bs =>
      trainEpochGo ops (i + 1) (trainBatchStep ops i st b).1
        (acc + (trainBatchStep ops i st b).2) bs

/-- The training phase of an epoch: `model.train()` (mode flag set), index
counter reset, `train_loss = 0`, then the loop over the training loader. -/
def trainPhase {P O I : Type} (ops : Ops P O I) (tb : List (Batch I))
    (st : RunState P O) : RunState P O × ℚ :=
  trainEpochGo ops 0 { st with mode := true } 0 tb

/-- The validation loop (train.py lines 142-162): same label encoding and
forward pass as training, loss accumulated, and no state change at all (no
backward, no optimizer step, no scheduler step, no generation, no
prints). -/
def valEpochGo {P O I : Type} (ops : Ops P O I) (st : RunState P O) :
    ℚ → List (Batch I) → RunState P O × ℚ
  | acc, [] => (st, acc)
  | acc, b :: bs => valEpochGo ops st (acc + batchLoss ops st.params b) bs

/-- Python division by a collection length: `x / len(c)` raises
`ZeroDivisionError` when the collection is empty, modelled as `none`. -/
def pyDiv (x : ℚ) (n : Nat) : Option ℚ :=
  if n = 0 then none else some (x / (n : ℚ))

/-- The checkpoint written at the end of zero-based epoch `epoch`
(train.py lines 167-171): directory `./model_checkpoints/epoch_{epoch+1}`,
created with `os.makedirs(output_dir, exist_ok=True)`, holding only model
and processor state. -/
def checkpointFor (epoch : Nat) : Checkpoint :=
  { dir := "./model_checkpoints/epoch_" ++ toString (epoch + 1)
    parents := true
    existOk := true
    saved := [SavedItem.model, SavedItem.processor] }

/-- One epoch of `train_model` (train.py lines 81-171): training phase,
average-training-loss report, `model.eval()`, validation loop under
`torch.no_grad()`, average-validation-loss report, checkpoint write.  A
`ZeroDivisionError` in either average aborts the run with the state at that
point (`Except.error`). -/
def runEpoch {P O I : Type} (ops : Ops P O I) (tb vb : List (Batch I))
    (epoch : Nat) (st : RunState P O) :
    Except (RunState P O) (RunState P O) :=
  let r := trainPhase ops tb st
  match pyDiv r.2 tb.length with
  | none => .error r.1
  | some avgT =>
      let st1 : RunState P O :=
        { r.1 with events := r.1.events ++ [Event.avgTrainLoss avgT], mode := false }
      let v := valEpochGo ops st1 0 vb
      match pyDiv v.2 vb.length with
      | none => .error v.1
      | some avgV =>
          .ok { v.1 with
                  events := v.1.events ++
                    [Event.avgValLoss avgV, Event.checkpoint (checkpointFor epoch)] }

/-- The successful-epoch output state, in explicit form. -/
def epochOutState {P O I : Type} (ops : Ops P O I) (tb vb : List (Batch I))
    (epoch : Nat) (st : RunState P O) : RunState P O :=
  let r := trainPhase ops tb st
  let st1 : RunState P O :=
    { r.1 with events := r.1.events ++ [Event.avgTrainLoss (r.2 / (tb.length : ℚ))], mode := false }
  let v := valEpochGo ops st1 0 vb
  { v.1 with
      events := v.1.events ++
        [Event.avgValLoss (v.2 / (vb.length : ℚ)), Event.checkpoint (checkpointFor epoch)] }

/-- The `for epoch in range(epochs)` loop, from epoch index `e` with `n`
epochs remaining.  `loader e` is the order in which the (shuffling)
training loader yields the fixed training set in epoch `e`; the validation
loader `vb` is the same every epoch. -/
def goEpochs {P O I : Type} (ops : Ops P O I) (loader : Nat → List (Batch I))
    (vb : List (Batch I)) : Nat → Nat → RunState P O →
    Except (RunState P O) (RunState P O)
  | _, 0, st => .ok st
  | e, Nat.succ n, st =>
      match runEpoch ops (loader e) vb e st with
      | .error s => .error s
      | .ok st' => goEpochs ops loader vb (e + 1) n st'

/-- Embedding of `train_model` (train.py lines 71-171): run `epochs` epochs
starting from epoch 0. -/
def train_model {P O I : Type} (ops : Ops P O I) (loader : Nat → List (Batch I))
    (vb : List (Batch I)) (epochs : Nat) (st : RunState P O) :
    Except (RunState P O) (RunState P O) :=
  goEpochs ops loader vb 0 epochs st

/-- Default learning rate of `train_model` (train.py line 71): `lr=1e-6`. -/
def default_lr : ℚ := 1 / 1000000

/-- Default epoch count of `train_model` (train.py line 71). -/
def default_epochs : Nat := 10

/-- Epoch count of the actual call (train.py line 173). -/
def script_epochs : Nat := 3

/-- Scheduler step budget (train.py line 73):
`num_training_steps = epochs * len(train_loader)`. -/
def num_training_steps (epochs nBatches : Nat) : Nat := epochs * nBatches

/-- Modelled from the spec: the external `get_scheduler(name="linear",
num_warmup_steps=0, num_training_steps=T)` collaborator (train.py lines
74-79) is not part of this repository; per the spec it decays the learning
rate linearly from the configured rate to zero over the full training-step
budget with no warmup.  With zero warmup its multiplier at step `s` is
`max(0, (T - s)/T)`. -/
def linear_lr (lr0 : ℚ) (T s : Nat) : ℚ :=
  lr0 * max 0 (((T : ℚ) - (s : ℚ)) / (T : ℚ))

/-- Modelled from the spec: a `DataLoader` with `shuffle=True` (train.py
lines 59-65) re-orders the fixed backing dataset each epoch; `σ e` is the
re-ordering used in epoch `e`. -/
def train_loader {B : Type} (σ : Nat → List B → List B) (tb : List B)
    (e : Nat) : List B :=
  σ e tb

/-- Modelled from the spec: a `DataLoader` without `shuffle` (train.py
lines 66-68) yields the fixed backing dataset in its original order, the
same in every epoch. -/
def val_loader {B : Type} (vb : List B) (_e : Nat) : List B := vb

/-- Checkpoints recorded in an event trace, in order. -/
def checkpointsOf : List Event → List Checkpoint
  | [] => []
  | Event.checkpoint c :: es => c :: checkpointsOf es
  | Event.printLoss _ :: es => checkpointsOf es
  | Event.printGT _ :: es => checkpointsOf es
  | Event.printPred _ :: es => checkpointsOf es
  | Event.avgTrainLoss _ :: es => checkpointsOf es
  | Event.avgValLoss _ :: es => checkpointsOf es

/-- The sequence of scalar loss values computed over an epoch's training
loop, starting at batch index `i` from state `st`. -/
def epochLossList {P O I : Type} (ops : Ops P O I) :
    Nat → RunState P O → List (Batch I) → List ℚ
  | _, _, [] => []
  | i, st, b :: bs =>
      (trainBatchStep ops i st b).2 ::
        epochLossList ops (i + 1) (trainBatchStep ops i st b).1 bs

/-- Concrete instantiation of the external collaborators, used to evaluate
the embedding on closed inputs. -/
def demoOps : Ops Unit Unit Unit :=
  { tokenize := fun s => List.replicate s.length 1
    padTok := 0
    forward := fun _ _ ls => ((ls.map List.length).sum : ℚ)
    optStep := fun p o _ => (p, o)
    generate := fun _ _ _ _ => []
    batch_decode := fun _ _ => []
    post_process_generation := fun s _ _ => s
    pixelShape := fun _ => (0, 0) }

/-- A concrete two-sample batch. -/
def demoBatch : Batch Unit := { inputs := (), answers := ["ab", "c"] }

/-- A concrete initial run state. -/
def demoState : RunState Unit Unit :=
  { params := (), opt := (), optSteps := 0, schedSteps := 0, mode := false
    events := [] }

/-- The state after one successful epoch over one training and one
validation batch, starting from `demoState`. -/
def demoOut : RunState Unit Unit :=
  epochOutState demoOps [demoBatch] [demoBatch] 0 demoState

/- ### Helper lemmas about the embedding -/

theorem checkpointsOf_append (a b : List Event) :
    checkpointsOf (a ++ b) = checkpointsOf a ++ checkpointsOf b := by
  induction a with
  | nil => rfl
  | cons e es ih => cases e <;> simp [checkpointsOf, ih]

theorem checkpointsOf_gtPredEvents {P O I : Type} (ops : Ops P O I)
    (shape : Nat × Nat) (l : List (String × String)) :
    checkpointsOf (gtPredEvents ops shape l) = [] := by
  induction l with
  | nil => rfl
  | cons ga rest ih => simp [gtPredEvents, checkpointsOf, ih]

theorem checkpointsOf_diagEvents {P O I : Type} (ops : Ops P O I) (p : P)
    (b : Batch I) (l : ℚ) : checkpointsOf (diagEvents ops p b l) = [] := by
  simp [diagEvents, checkpointsOf, checkpointsOf_gtPredEvents]

theorem trainBatchStep_events {P O I : Type} (ops : Ops P O I) (i : Nat)
    (st : RunState P O) (b : Batch I) :
    ((trainBatchStep ops i st b).1).events
      = st.events ++
        (if i % 200 = 0 then
          diagEvents ops st.params b (batchLoss ops st.params b) else []) :=
  rfl

theorem trainBatchStep_params {P O I : Type} (ops : Ops P O I) (i : Nat)
    (st : RunState P O) (b : Batch I) :
    ((trainBatchStep ops i st b).1).params
      = (ops.optStep st.params st.opt (batchLoss ops st.params b)).1 :=
  rfl

theorem trainBatchStep_opt {P O I : Type} (ops : Ops P O I) (i : Nat)
    (st : RunState P O) (b : Batch I) :
    ((trainBatchStep ops i st b).1).opt
      = (ops.optStep st.params st.opt (batchLoss ops st.params b)).2 :=
  rfl

theorem trainBatchStep_optSteps {P O I : Type} (ops : Ops P O I) (i : Nat)
    (st : RunState P O) (b : Batch I) :
    ((trainBatchStep ops i st b).1).optSteps = st.optSteps + 1 :=
  rfl

theorem trainBatchStep_schedSteps {P O I : Type} (ops : Ops P O I) (i : Nat)
    (st : RunState P O) (b : Batch I) :
    ((trainBatchStep ops i st b).1).schedSteps = st.schedSteps + 1 :=
  rfl

theorem trainBatchStep_mode {P O I : Type} (ops : Ops P O I) (i : Nat)
    (st : RunState P O) (b : Batch I) :
    ((trainBatchStep ops i st b).1).mode = st.mode :=
  rfl

theorem trainBatchStep_loss {P O I : Type} (ops : Ops P O I) (i : Nat)
    (st : RunState P O) (b : Batch I) :
    (trainBatchStep ops i st b).2 = batchLoss ops st.params b :=
  rfl

theorem checkpointsOf_trainBatchStep {P O I : Type} (ops : Ops P O I) (i : Nat)
    (st : RunState P O) (b : Batch I) :
    checkpointsOf ((trainBatchStep ops i st b).1).events
      = checkpointsOf st.events := by
  rw [trainBatchStep_events]
  by_cases h : i % 200 = 0 <;>
    simp [h, checkpointsOf_append, checkpointsOf_diagEvents,
      checkpointsOf_gtPredEvents, checkpointsOf]

theorem checkpointsOf_trainEpochGo {P O I : Type} (ops : Ops P O I) :
    ∀ (tb : List (Batch I)) (i : Nat) (st : RunState P O) (acc : ℚ),
    checkpointsOf ((trainEpochGo ops i st acc tb).1).events
      = checkpointsOf st.events := by
  intro tb
  induction tb with
  | nil => intro i st acc; rfl
  | cons b bs ih =>
      intro i st acc
      simp [trainEpochGo, ih, checkpointsOf_trainBatchStep]

theorem trainEpochGo_schedSteps {P O I : Type} (ops : Ops P O I) :
    ∀ (tb : List (Batch I)) (i : Nat) (st : RunState P O) (acc : ℚ),
    ((trainEpochGo ops i st acc tb).1).schedSteps
      = st.schedSteps + tb.length := by
  intro tb
  induction tb with
  | nil => intro i st acc; rfl
  | cons b bs ih =>
      intro i st acc
      simp [trainEpochGo, ih, trainBatchStep_schedSteps]
      omega

theorem trainEpochGo_optSteps {P O I : Type} (ops : Ops P O I) :
    ∀ (tb : List (Batch I)) (i : Nat) (st : RunState P O) (acc : ℚ),
    ((trainEpochGo ops i st acc tb).1).optSteps = st.optSteps + tb.length := by
  intro tb
  induction tb with
  | nil => intro i st acc; rfl
  | cons b bs ih =>
      intro i st acc
      simp [trainEpochGo, ih, trainBatchStep_optSteps]
      omega

theorem trainEpochGo_events_append {P O I : Type} (ops : Ops P O I) :
    ∀ (tb : List (Batch I)) (i : Nat) (st : RunState P O) (acc : ℚ),
    ∃ rest, ((trainEpochGo ops i st acc tb).1).events = st.events ++ rest := by
  intro tb
  induction tb with
  | nil => intro i st acc; exact ⟨[], by simp [trainEpochGo]⟩
  | cons b bs ih =>
      intro i st acc
      obtain ⟨r, hr⟩ :=
        ih (i + 1) (trainBatchStep ops i st b).1 (acc + (trainBatchStep ops i st b).2)
      refine ⟨(if i % 200 = 0 then
          diagEvents ops st.params b (batchLoss ops st.params b) else []) ++ r, ?_⟩
      rw [show trainEpochGo ops i st acc (b :: bs)
            = trainEpochGo ops (i + 1) (trainBatchStep ops i st b).1
                (acc + (trainBatchStep ops i st b).2) bs from rfl,
          hr, trainBatchStep_events, List.append_assoc]

theorem trainEpochGo_total {P O I : Type} (ops : Ops P O I) :
    ∀ (tb : List (Batch I)) (i : Nat) (st : RunState P O) (acc : ℚ),
    (trainEpochGo ops i st acc tb).2 = acc + (epochLossList ops i st tb).sum := by
  intro tb
  induction tb with
  | nil => intro i st acc; simp [trainEpochGo, epochLossList]
  | cons b bs ih =>
      intro i st acc
      simp [trainEpochGo, epochLossList, ih]
      ring

theorem valEpochGo_state {P O I : Type} (ops : Ops P O I) (st : RunState P O) :
    ∀ (vb : List (Batch I)) (acc : ℚ), (valEpochGo ops st acc vb).1 = st := by
  intro vb
  induction vb with
  | nil => intro acc; rfl
  | cons b bs ih => intro acc; simp [valEpochGo, ih]

theorem valEpochGo_total {P O I : Type} (ops : Ops P O I) (st : RunState P O) :
    ∀ (vb : List (Batch I)) (acc : ℚ),
    (valEpochGo ops st acc vb).2
      = acc + (vb.map (fun b => batchLoss ops st.params b)).sum := by
  intro vb
  induction vb with
  | nil => intro acc; simp [valEpochGo]
  | cons b bs ih => intro acc; simp [valEpochGo, ih]; ring

theorem trainPhase_ckpts {P O I : Type} (ops : Ops P O I) (tb : List (Batch I))
    (st : RunState P O) :
    checkpointsOf ((trainPhase ops tb st).1).events = checkpointsOf st.events := by
  simp [trainPhase, checkpointsOf_trainEpochGo]

theorem trainPhase_schedSteps {P O I : Type} (ops : Ops P O I)
    (tb : List (Batch I)) (st : RunState P O) :
    ((trainPhase ops tb st).1).schedSteps = st.schedSteps + tb.length := by
  simp [trainPhase, trainEpochGo_schedSteps]

theorem trainPhase_optSteps {P O I : Type} (ops : Ops P O I)
    (tb : List (Batch I)) (st : RunState P O) :
    ((trainPhase ops tb st).1).optSteps = st.optSteps + tb.length := by
  simp [trainPhase, trainEpochGo_optSteps]

theorem runEpoch_eq_ok {P O I : Type} (ops : Ops P O I) (tb vb : List (Batch I))
    (e : Nat) (st : RunState P O) (htb : tb ≠ []) (hvb : vb ≠ []) :
    runEpoch ops tb vb e st = .ok (epochOutState ops tb vb e st) := by
  have h1 : tb.length ≠ 0 := by simpa using htb
  have h2 : vb.length ≠ 0 := by simpa using hvb
  simp [runEpoch, epochOutState, pyDiv, h1, h2]

theorem runEpoch_ok_inv {P O I : Type} (ops : Ops P O I)
    {tb vb : List (Batch I)} {e : Nat} {st st' : RunState P O}
    (h : runEpoch ops tb vb e st = .ok st') :
    tb ≠ [] ∧ vb ≠ [] ∧ st' = epochOutState ops tb vb e st := by
  by_cases h1 : tb.length = 0
  · exfalso; simp [runEpoch, pyDiv, h1] at h
  · by_cases h2 : vb.length = 0
    · exfalso; simp [runEpoch, pyDiv, h1, h2] at h
    · have htb : tb ≠ [] := by simpa using h1
      have hvb : vb ≠ [] := by simpa using h2
      refine ⟨htb, hvb, ?_⟩
      rw [runEpoch_eq_ok ops tb vb e st htb hvb] at h
      exact (Except.ok.inj h).symm

theorem epochOutState_params {P O I : Type} (ops : Ops P O I)
    (tb vb : List (Batch I)) (e : Nat) (st : RunState P O) :
    (epochOutState ops tb vb e st).params = ((trainPhase ops tb st).1).params := by
  simp [epochOutState, valEpochGo_state]

theorem epochOutState_opt {P O I : Type} (ops : Ops P O I)
    (tb vb : List (Batch I)) (e : Nat) (st : RunState P O) :
    (epochOutState ops tb vb e st).opt = ((trainPhase ops tb st).1).opt := by
  simp [epochOutState, valEpochGo_state]

theorem epochOutState_optSteps {P O I : Type} (ops : Ops P O I)
    (tb vb : List (Batch I)) (e : Nat) (st : RunState P O) :
    (epochOutState ops tb vb e st).optSteps = ((trainPhase ops tb st).1).optSteps := by
  simp [epochOutState, valEpochGo_state]

theorem epochOutState_schedSteps {P O I : Type} (ops : Ops P O I)
    (tb vb : List (Batch I)) (e : Nat) (st : RunState P O) :
    (epochOutState ops tb vb e st).schedSteps = ((trainPhase ops tb st).1).schedSteps := by
  simp [epochOutState, valEpochGo_state]

theorem epochOutState_ckpts {P O I : Type} (ops : Ops P O I)
    (tb vb : List (Batch I)) (e : Nat) (st : RunState P O) :
    checkpointsOf (epochOutState ops tb vb e st).events
      = checkpointsOf st.events ++ [checkpointFor e] := by
  simp [epochOutState, valEpochGo_state, checkpointsOf_append, checkpointsOf,
    trainPhase_ckpts]

theorem goEpochs_ok_ckpts {P O I : Type} (ops : Ops P O I)
    (loader : Nat → List (Batch I)) (vb : List (Batch I)) :
    ∀ (n e : Nat) (st st' : RunState P O),
    goEpochs ops loader vb e n st = .ok st' →
    checkpointsOf st'.events
      = checkpointsOf st.events ++ (List.range' e n).map checkpointFor := by
  intro n
  induction n with
  | zero =>
      intro e st st' h
      have : st = st' := Except.ok.inj h
      simp [← this]
  | succ m ih =>
      intro e st st' h
      cases hre : runEpoch ops (loader e) vb e st with
      | error s => rw [goEpochs, hre] at h; exact absurd h (by simp)
      | ok s1 =>
          rw [goEpochs, hre] at h
          have hs1 := (runEpoch_ok_inv ops hre).2.2
          have := ih (e + 1) s1 st' h
          rw [this, hs1, epochOutState_ckpts, List.range'_succ]
          simp

theorem goEpochs_ok_schedSteps {P O I : Type} (ops : Ops P O I)
    (loader : Nat → List (Batch I)) (vb : List (Batch I)) (L : Nat)
    (hL : ∀ e, (loader e).length = L) :
    ∀ (n e : Nat) (st st' : RunState P O),
    goEpochs ops loader vb e n st = .ok st' →
    st'.schedSteps = st.schedSteps + n * L := by
  intro n
  induction n with
  | zero =>
      intro e st st' h
      have : st = st' := Except.ok.inj h
      simp [← this]
  | succ m ih =>
      intro e st st' h
      cases hre : runEpoch ops (loader e) vb e st with
      | error s => rw [goEpochs, hre] at h; exact absurd h (by simp)
      | ok s1 =>
          rw [goEpochs, hre] at h
          have hs1 := (runEpoch_ok_inv ops hre).2.2
          have hstep : s1.schedSteps = st.schedSteps + L := by
            rw [hs1, epochOutState_schedSteps, trainPhase_schedSteps, hL]
          have := ih (e + 1) s1 st' h
          rw [this, hstep]
          have : (m + 1) * L = m * L + L := Nat.succ_mul m L
          omega

theorem train_model_one {P O I : Type} (ops : Ops P O I)
    (tb vb : List (Batch I)) (st : RunState P O)
    (htb : tb ≠ []) (hvb : vb ≠ []) :
    train_model ops (fun _ => tb) vb 1 st = .ok (epochOutState ops tb vb 0 st) := by
  simp [train_model, goEpochs, runEpoch_eq_ok ops tb vb 0 st htb hvb]

theorem runEpoch_empty_train {P O I : Type} (ops : Ops P O I)
    (vb : List (Batch I)) (e : Nat) (st : RunState P O) :
    runEpoch ops [] vb e st = .error { st with mode := true } := by
  simp [runEpoch, trainPhase, trainEpochGo, pyDiv]

theorem runEpoch_empty_val {P O I : Type} (ops : Ops P O I)
    (tb : List (Batch I)) (e : Nat) (st : RunState P O) :
    ∃ s, runEpoch ops tb [] e st = .error s ∧
      checkpointsOf s.events = checkpointsOf st.events := by
  by_cases h1 : tb.length = 0
  · exact ⟨(trainPhase ops tb st).1, by simp [runEpoch, pyDiv, h1],
      trainPhase_ckpts ops tb st⟩
  · refine ⟨{ (trainPhase ops tb st).1 with
        events := ((trainPhase ops tb st).1).events ++
          [Event.avgTrainLoss ((trainPhase ops tb st).2 / ((tb.length : ℕ) : ℚ))]
        mode := false }, ?_, ?_⟩
    · simp [runEpoch, pyDiv, h1, valEpochGo]
    · simp [checkpointsOf_append, checkpointsOf, trainPhase_ckpts]

theorem zip_take_take {A B : Type} :
    ∀ (n : Nat) (l : List A) (l' : List B),
    (l.take n).zip (l'.take n) = (l.zip l').take n := by
  intro n
  induction n with
  | zero => intro l l'; simp
  | succ m ih => intro l l'; cases l <;> cases l' <;> simp [ih]

theorem zip_drop_drop {A B : Type} :
    ∀ (n : Nat) (l : List A) (l' : List B),
    (l.drop n).zip (l'.drop n) = (l.zip l').drop n := by
  intro n
  induction n with
  | zero => intro l l'; simp
  | succ m ih => intro l l'; cases l <;> cases l' <;> simp [ih]

theorem linear_lr_self (lr0 : ℚ) (T : Nat) : linear_lr lr0 T T = 0 := by
  simp [linear_lr]

/- ### Claim theorems -/

/-- C1: `data_split data` returns the pair
`(data[:len - len//10], data[len - len//10:])`; the validation part has
length `len(data) // 10`, the two part lengths sum to `len(data)`, the
parts concatenate back to `data`, the validation part is exactly the tail
of the original ordering from the cut point on, and a 10-element input
splits into 9 training elements and 1 validation element. -/
theorem claim1_data_split {A : Type} (data : List A) :
    data_split data
      = (data.take (data.length - data.length / 10),
         data.drop (data.length - data.length / 10)) ∧
    (data_split data).2.length = data.length / 10 ∧
    (data_split data).1.length + (data_split data).2.length = data.length ∧
    (data_split data).1 ++ (data_split data).2 = data ∧
    (data_split data).2 = data.drop (split_index data) ∧
    (data.length = 10 →
      (data_split data).1.length = 9 ∧ (data_split data).2.length = 1) := by
  refine ⟨rfl, ?_, ?_, ?_, rfl, ?_⟩
  · simp only [data_split, split_index, List.length_drop]
    omega
  · simp only [data_split, split_index, List.length_take, List.length_drop]
    omega
  · exact List.take_append_drop _ _
  · intro h
    refine ⟨?_, ?_⟩
    · simp [data_split, split_index, h]
    · simp [data_split, split_index, h]

/-- C1 witness: a concrete 10-element input splits 9/1. -/
theorem claim1_data_split_witness :
    (List.range 10).length = 10 ∧
    ((data_split (List.range 10)).1.length = 9 ∧
     (data_split (List.range 10)).2.length = 1) :=
  ⟨by decide, (claim1_data_split (List.range 10)).2.2.2.2.2 (by decide)⟩

/-- C10: `data_split` is applied independently to the three parallel
sequences; for equal-length inputs the cut index is the same for all
three, so the zipped training parts are exactly the first `split_index`
zipped triples of the originals and the zipped validation parts are
exactly the remaining ones — sample alignment is preserved. -/
theorem claim10_parallel_split_alignment {A B C : Type} (qs : List A)
    (ans : List B) (ims : List C)
    (h1 : ans.length = qs.length) (h2 : ims.length = qs.length) :
    split_index ans = split_index qs ∧
    split_index ims = split_index qs ∧
    ((data_split qs).1.zip ((data_split ans).1.zip (data_split ims).1))
      = (qs.zip (ans.zip ims)).take (split_index qs) ∧
    ((data_split qs).2.zip ((data_split ans).2.zip (data_split ims).2))
      = (qs.zip (ans.zip ims)).drop (split_index qs) := by
  have ha : split_index ans = split_index qs := by
    simp [split_index, h1]
  have hi : split_index ims = split_index qs := by
    simp [split_index, h2]
  refine ⟨ha, hi, ?_, ?_⟩
  · rw [show (data_split qs).1 = qs.take (split_index qs) from rfl,
        show (data_split ans).1 = ans.take (split_index ans) from rfl,
        show (data_split ims).1 = ims.take (split_index ims) from rfl,
        ha, hi, zip_take_take, zip_take_take]
  · rw [show (data_split qs).2 = qs.drop (split_index qs) from rfl,
        show (data_split ans).2 = ans.drop (split_index ans) from rfl,
        show (data_split ims).2 = ims.drop (split_index ims) from rfl,
        ha, hi, zip_drop_drop, zip_drop_drop]

/-- C10 witness: concrete aligned triple of sequences. -/
theorem claim10_parallel_split_alignment_witness :
    (["a", "b"] : List String).length = ([1, 2] : List Nat).length ∧
    split_index (["a", "b"] : List String) = split_index ([1, 2] : List Nat) ∧
    split_index ([true, false] : List Bool) = split_index ([1, 2] : List Nat) := by
  have h := claim10_parallel_split_alignment ([1, 2] : List Nat)
    (["a", "b"] : List String) ([true, false] : List Bool) (by decide) (by decide)
  exact ⟨by decide, h.1, h.2.1⟩

/-- C9: a dataset of fewer than 10 samples yields an empty validation
split; the epoch-end average over an empty loader is a division by zero,
so an empty validation loader aborts the epoch (with no checkpoint event
recorded for it), and an empty training loader aborts at the
average-training-loss division; `pyDiv` is `some` exactly on non-empty
loaders. -/
theorem claim9_empty_loader_divzero {P O I : Type} {A : Type} (ops : Ops P O I)
    (st : RunState P O) (tb : List (Batch I)) (e : Nat) (data : List A)
    (hsmall : data.length < 10) :
    (data_split data).2 = [] ∧
    (∀ x : ℚ, pyDiv x 0 = none) ∧
    (∀ (x : ℚ) (n : Nat), (pyDiv x n).isSome ↔ n ≠ 0) ∧
    (∃ s, runEpoch ops tb [] e st = .error s ∧
        checkpointsOf s.events = checkpointsOf st.events) ∧
    (∀ vb : List (Batch I),
        runEpoch ops [] vb e st = .error { st with mode := true }) := by
  refine ⟨?_, fun x => rfl, ?_, runEpoch_empty_val ops tb e st,
    fun vb => runEpoch_empty_train ops vb e st⟩
  · have h10 : data.length / 10 = 0 := Nat.div_eq_of_lt hsmall
    simp [data_split, split_index, h10, List.drop_length]
  · intro x n
    by_cases hn : n = 0 <;> simp [pyDiv, hn]

/-- C9 witness: a 3-element dataset has an empty validation split, and the
empty-loader average is undefined. -/
theorem claim9_empty_loader_divzero_witness :
    ([1, 2, 3] : List Nat).length < 10 ∧
    (data_split ([1, 2, 3] : List Nat)).2 = [] ∧
    pyDiv 5 0 = none := by
  have h := claim9_empty_loader_divzero demoOps demoState [] 0
    ([1, 2, 3] : List Nat) (by decide)
  exact ⟨by decide, h.1, h.2.1 5⟩

/-- C2: the diagnostic generation-and-print path of a training batch runs
iff the within-epoch batch index is divisible by 200; the index restarts
at 0 in every epoch's training phase, so the first batch of an epoch
always triggers it and the batch at index 1 never does; the branch decodes
with `skip_special_tokens=False` after beam-search generation with
`num_beams=3, max_new_tokens=1024`, prints ground truth and prediction per
sample, and changes neither the loss value nor the parameters, optimizer
state or step counters. -/
theorem claim2_diagnostic_every_200 {P O I : Type} (ops : Ops P O I) :
    (∀ (i : Nat) (st : RunState P O) (b : Batch I),
        ((trainBatchStep ops i st b).1).events
          = st.events ++
            (if i % 200 = 0 then
              diagEvents ops st.params b (batchLoss ops st.params b) else [])) ∧
    (∀ (st : RunState P O) (b : Batch I),
        ((trainBatchStep ops 0 st b).1).events
          = st.events ++ diagEvents ops st.params b (batchLoss ops st.params b)) ∧
    (∀ (st : RunState P O) (b : Batch I),
        ((trainBatchStep ops 1 st b).1).events = st.events) ∧
    (∀ (st : RunState P O) (b0 : Batch I) (bs : List (Batch I)), ∃ rest,
        ((trainPhase ops (b0 :: bs) st).1).events
          = st.events ++
              diagEvents ops st.params b0 (batchLoss ops st.params b0) ++ rest) ∧
    (∀ (p : P) (b : Batch I) (l : ℚ),
        diagEvents ops p b l
          = Event.printLoss l ::
              gtPredEvents ops (ops.pixelShape b.inputs)
                ((ops.batch_decode (ops.generate p b.inputs 1024 3) false).zip
                  b.answers)) ∧
    (∀ (i : Nat) (st : RunState P O) (b : Batch I),
        ((trainBatchStep ops i st b).1).params
            = (ops.optStep st.params st.opt (batchLoss ops st.params b)).1 ∧
        ((trainBatchStep ops i st b).1).opt
            = (ops.optStep st.params st.opt (batchLoss ops st.params b)).2 ∧
        ((trainBatchStep ops i st b).1).optSteps = st.optSteps + 1 ∧
        ((trainBatchStep ops i st b).1).schedSteps = st.schedSteps + 1 ∧
        (trainBatchStep ops i st b).2 = batchLoss ops st.params b) := by
  refine ⟨trainBatchStep_events ops, ?_, ?_, ?_, fun p b l => rfl, ?_⟩
  · intro st b
    rw [trainBatchStep_events]
    simp
  · intro st b
    rw [trainBatchStep_events]
    simp
  · intro st b0 bs
    obtain ⟨r, hr⟩ := trainEpochGo_events_append ops bs 1
      (trainBatchStep ops 0 { st with mode := true } b0).1
      (0 + (trainBatchStep ops 0 { st with mode := true } b0).2)
    refine ⟨r, ?_⟩
    rw [show (trainPhase ops (b0 :: bs) st).1
          = (trainEpochGo ops 1 (trainBatchStep ops 0 { st with mode := true } b0).1
              (0 + (trainBatchStep ops 0 { st with mode := true } b0).2) bs).1
        from rfl, hr, trainBatchStep_events]
    simp
  · intro i st b
    exact ⟨trainBatchStep_params ops i st b, trainBatchStep_opt ops i st b,
      trainBatchStep_optSteps ops i st b, trainBatchStep_schedSteps ops i st b,
      trainBatchStep_loss ops i st b⟩

/-- C5: the validation loop is a frame: it returns the state it was given
(no parameter update, no optimizer step, no scheduler step, no generation
event, no print), computes the same per-batch label-encoding-plus-forward
loss as the training loop, accumulates that loss, and a completed epoch's
final parameters, optimizer state and step counters are exactly those at
the end of the training phase. -/
theorem claim5_validation_frame {P O I : Type} (ops : Ops P O I)
    (st : RunState P O) (acc : ℚ) (tb vb : List (Batch I)) (e : Nat)
    (st' : RunState P O) (i : Nat) (b : Batch I)
    (hok : runEpoch ops tb vb e st = .ok st') :
    (valEpochGo ops st acc vb).1 = st ∧
    batchLoss ops st.params b = (trainBatchStep ops i st b).2 ∧
    (valEpochGo ops st acc vb).2
      = acc + (vb.map (fun x => batchLoss ops st.params x)).sum ∧
    st'.params = ((trainPhase ops tb st).1).params ∧
    st'.opt = ((trainPhase ops tb st).1).opt ∧
    st'.optSteps = ((trainPhase ops tb st).1).optSteps ∧
    st'.schedSteps = ((trainPhase ops tb st).1).schedSteps := by
  have hst' := (runEpoch_ok_inv ops hok).2.2
  refine ⟨valEpochGo_state ops st vb acc, (trainBatchStep_loss ops i st b).symm,
    valEpochGo_total ops st vb acc, ?_, ?_, ?_, ?_⟩
  · rw [hst', epochOutState_params]
  · rw [hst', epochOutState_opt]
  · rw [hst', epochOutState_optSteps]
  · rw [hst', epochOutState_schedSteps]

/-- C5 witness: a concrete successful epoch. -/
theorem claim5_validation_frame_witness :
    (valEpochGo demoOps demoState 0 [demoBatch]).1 = demoState ∧
    demoOut.params = ((trainPhase demoOps [demoBatch] demoState).1).params ∧
    demoOut.schedSteps = ((trainPhase demoOps [demoBatch] demoState).1).schedSteps := by
  have h := claim5_validation_frame demoOps demoState 0 [demoBatch] [demoBatch] 0
    demoOut 0 demoBatch
    (runEpoch_eq_ok demoOps [demoBatch] [demoBatch] 0 demoState
      (List.cons_ne_nil _ _) (List.cons_ne_nil _ _))
  exact ⟨h.1, h.2.2.2.1, h.2.2.2.2.2.2⟩

/-- C8: the labels passed to the forward pass are exactly the padded
token-id output of the text-only tokenizer on the raw answer strings;
every label row is the row's tokens followed only by copies of the
tokenizer's pad token (never an ignored-index marker), so padded positions
reach the loss as the pad token. -/
theorem claim8_labels_keep_pad_token {P O I : Type} (ops : Ops P O I) (i : Nat)
    (st : RunState P O) (b : Batch I) (row : List Nat)
    (hrow : row ∈ tokenizer_pad ops.tokenize ops.padTok b.answers) :
    (trainBatchStep ops i st b).2
      = ops.forward st.params b.inputs
          (tokenizer_pad ops.tokenize ops.padTok b.answers) ∧
    (∃ s, s ∈ b.answers ∧
      row = ops.tokenize s ++
        List.replicate
          (maxRowLen ops.tokenize b.answers - (ops.tokenize s).length)
          ops.padTok ∧
      (∀ k (hk : k < row.length), (ops.tokenize s).length ≤ k →
        row.get ⟨k, hk⟩ = ops.padTok)) := by
  refine ⟨rfl, ?_⟩
  simp only [tokenizer_pad, List.map_map, List.mem_map] at hrow
  obtain ⟨s, hs, hrow⟩ := hrow
  refine ⟨s, hs, ?_, ?_⟩
  · rw [← hrow]
    rfl
  · intro k hk hge
    subst hrow
    simp only [Function.comp, padRow] at hk ⊢
    rw [List.get_eq_getElem, List.getElem_append_right hge]
    exact List.getElem_replicate ..

/-- C8 witness: a concrete two-answer batch whose second label row is
padded with the pad token. -/
theorem claim8_labels_keep_pad_token_witness :
    ([1, 0] : List Nat) ∈ tokenizer_pad demoOps.tokenize demoOps.padTok
      demoBatch.answers ∧
    (trainBatchStep demoOps 0 demoState demoBatch).2
      = demoOps.forward demoState.params demoBatch.inputs
          (tokenizer_pad demoOps.tokenize demoOps.padTok demoBatch.answers) :=
  ⟨by decide,
   (claim8_labels_keep_pad_token demoOps 0 demoState demoBatch [1, 0]
     (by decide)).1⟩

/-- C3: the epoch total accumulated by the training loop is exactly the
sum of the per-batch scalar losses, so the reported average training loss
is that sum divided by the number of batches; the same sum-over-count
relation holds for the reported average validation loss. -/
theorem claim3_average_is_sum_over_count {P O I : Type} (ops : Ops P O I)
    (st : RunState P O) (tb vb : List (Batch I)) (e : Nat)
    (htb : tb ≠ []) (hvb : vb ≠ []) :
    (∀ (i : Nat) (acc : ℚ),
        (trainEpochGo ops i st acc tb).2 = acc + (epochLossList ops i st tb).sum) ∧
    pyDiv (trainPhase ops tb st).2 tb.length
      = some ((epochLossList ops 0 { st with mode := true } tb).sum
          / ((tb.length : ℕ) : ℚ)) ∧
    (∀ acc : ℚ, (valEpochGo ops st acc vb).2
        = acc + (vb.map (fun x => batchLoss ops st.params x)).sum) ∧
    pyDiv (valEpochGo ops st 0 vb).2 vb.length
      = some ((vb.map (fun x => batchLoss ops st.params x)).sum
          / ((vb.length : ℕ) : ℚ)) ∧
    (∃ st', runEpoch ops tb vb e st = .ok st' ∧
        Event.avgTrainLoss
            ((epochLossList ops 0 { st with mode := true } tb).sum
              / ((tb.length : ℕ) : ℚ)) ∈ st'.events ∧
        Event.avgValLoss
            ((vb.map (fun x =>
                batchLoss ops ((trainPhase ops tb st).1).params x)).sum
              / ((vb.length : ℕ) : ℚ)) ∈ st'.events) := by
  have h1 : tb.length ≠ 0 := by simpa using htb
  have h2 : vb.length ≠ 0 := by simpa using hvb
  have hT : (trainPhase ops tb st).2
      = (epochLossList ops 0 { st with mode := true } tb).sum := by
    simpa using trainEpochGo_total ops tb 0 { st with mode := true } 0
  have hV : ∀ s1 : RunState P O, (valEpochGo ops s1 0 vb).2
      = (vb.map (fun x => batchLoss ops s1.params x)).sum := fun s1 => by
    simpa using valEpochGo_total ops s1 vb 0
  refine ⟨fun i acc => trainEpochGo_total ops tb i st acc, ?_, ?_, ?_, ?_⟩
  · rw [hT]
    simp [pyDiv, h1]
  · intro acc
    exact valEpochGo_total ops st vb acc
  · rw [hV st]
    simp [pyDiv, h2]
  · refine ⟨epochOutState ops tb vb e st,
      runEpoch_eq_ok ops tb vb e st htb hvb, ?_, ?_⟩
    · simp [epochOutState, valEpochGo_state, hT]
    · simp [epochOutState, valEpochGo_state, hV]

/-- C3 witness: a concrete one-batch epoch. -/
theorem claim3_average_is_sum_over_count_witness :
    (([demoBatch] : List (Batch Unit)) ≠ []) ∧
    pyDiv (trainPhase demoOps [demoBatch] demoState).2
        ([demoBatch] : List (Batch Unit)).length
      = some ((epochLossList demoOps 0 { demoState with mode := true }
            [demoBatch]).sum
          / ((([demoBatch] : List (Batch Unit)).length : ℕ) : ℚ)) :=
  ⟨List.cons_ne_nil _ _,
   (claim3_average_is_sum_over_count demoOps demoState [demoBatch] [demoBatch] 0
     (List.cons_ne_nil _ _) (List.cons_ne_nil _ _)).2.1⟩

/-- C4: the linear learning-rate schedule with zero warmup, over the
budget of `epochs * len(train_loader)` steps, decreases strictly and
linearly from the configured rate (default `1e-6`) with no warmup plateau,
and is exactly zero at the final training step; a completed run performs
exactly `epochs * len(train_loader)` scheduler steps. -/
theorem claim4_linear_schedule {P O I : Type} (lr0 : ℚ) (T : Nat)
    (ops : Ops P O I) (loader : Nat → List (Batch I)) (vb : List (Batch I))
    (L n : Nat) (st st' : RunState P O)
    (hT : 0 < T) (hlr : 0 < lr0)
    (hL : ∀ e, (loader e).length = L)
    (h0 : st.schedSteps = 0)
    (hrun : train_model ops loader vb n st = .ok st') :
    (∀ s t : Nat, s < t → t ≤ T → linear_lr lr0 T t < linear_lr lr0 T s) ∧
    linear_lr lr0 T 0 = lr0 ∧
    linear_lr lr0 T T = 0 ∧
    (∀ s : Nat, s ≤ T →
        linear_lr lr0 T s = lr0 - (s : ℚ) * (lr0 / (T : ℚ))) ∧
    st'.schedSteps = num_training_steps n L ∧
    linear_lr lr0 (num_training_steps n L) st'.schedSteps = 0 := by
  have hTQ : (0 : ℚ) < (T : ℚ) := by exact_mod_cast hT
  have hT0 : ((T : ℚ)) ≠ 0 := ne_of_gt hTQ
  have hsched : st'.schedSteps = num_training_steps n L := by
    have h := goEpochs_ok_schedSteps ops loader vb L hL n 0 st st' hrun
    show st'.schedSteps = n * L
    rw [h, h0]
    exact Nat.zero_add _
  refine ⟨?_, ?_, linear_lr_self lr0 T, ?_, hsched, ?_⟩
  · intro s t hst htT
    have hts : ((s : ℚ)) < (t : ℚ) := by exact_mod_cast hst
    have htT' : ((t : ℚ)) ≤ (T : ℚ) := by exact_mod_cast htT
    have h0t : (0 : ℚ) ≤ ((T : ℚ) - t) / T := div_nonneg (by linarith) hTQ.le
    have h0s : (0 : ℚ) ≤ ((T : ℚ) - s) / T := div_nonneg (by linarith) hTQ.le
    rw [linear_lr, linear_lr, max_eq_right h0t, max_eq_right h0s]
    have hinv : (0 : ℚ) < (T : ℚ)⁻¹ := inv_pos.mpr hTQ
    have hnum : (T : ℚ) - t < (T : ℚ) - s := by linarith
    have hmul := mul_lt_mul_of_pos_right hnum hinv
    rw [div_eq_mul_inv, div_eq_mul_inv]
    exact mul_lt_mul_of_pos_left hmul hlr
  · have hmax : max (0 : ℚ) 1 = 1 := by norm_num
    simp [linear_lr, div_self hT0, hmax]
  · intro s hsT
    have hs' : ((s : ℚ)) ≤ (T : ℚ) := by exact_mod_cast hsT
    have h0s : (0 : ℚ) ≤ ((T : ℚ) - s) / T := div_nonneg (by linarith) hTQ.le
    rw [linear_lr, max_eq_right h0s]
    field_simp
    ring
  · rw [hsched]
    exact linear_lr_self lr0 (num_training_steps n L)

/-- C4 witness: a concrete completed one-epoch run with the default
learning rate. -/
theorem claim4_linear_schedule_witness :
    linear_lr default_lr 30 30 = 0 ∧
    demoOut.schedSteps = num_training_steps 1 1 := by
  have h := claim4_linear_schedule default_lr 30 demoOps (fun _ => [demoBatch])
    [demoBatch] 1 1 demoState demoOut (by decide) (by norm_num [default_lr])
    (fun _ => rfl) rfl
    (train_model_one demoOps [demoBatch] [demoBatch] demoState
      (List.cons_ne_nil _ _) (List.cons_ne_nil _ _))
  exact ⟨h.2.2.1, h.2.2.2.2.1⟩

/-- C6: a completed run of `n` epochs records exactly one checkpoint per
epoch, in order, the checkpoint of zero-based epoch `e` being the
directory `./model_checkpoints/epoch_{e+1}` created with parent creation
and `exist_ok`, containing only model and processor state (no optimizer or
scheduler state); a 1-epoch run over a 1-batch training set steps the
optimizer exactly once and records exactly the epoch-1 checkpoint. -/
theorem claim6_checkpoint_per_epoch {P O I : Type} (ops : Ops P O I)
    (loader : Nat → List (Batch I)) (vb : List (Batch I)) (n : Nat)
    (st st' : RunState P O) (b : Batch I)
    (hrun : train_model ops loader vb n st = .ok st')
    (hvb : vb ≠ []) :
    checkpointsOf st'.events
      = checkpointsOf st.events ++ (List.range n).map checkpointFor ∧
    (∀ e : Nat, (checkpointFor e).dir
        = "./model_checkpoints/epoch_" ++ toString (e + 1)) ∧
    (∀ e : Nat, (checkpointFor e).parents = true ∧
                (checkpointFor e).existOk = true) ∧
    (∀ e : Nat, (checkpointFor e).saved
        = [SavedItem.model, SavedItem.processor]) ∧
    (∀ e : Nat, SavedItem.optimizer ∉ (checkpointFor e).saved ∧
                SavedItem.scheduler ∉ (checkpointFor e).saved) ∧
    (∃ s, train_model ops (fun _ => [b]) vb 1 st = .ok s ∧
        s.optSteps = st.optSteps + 1 ∧
        checkpointsOf s.events = checkpointsOf st.events ++ [checkpointFor 0] ∧
        (checkpointFor 0).dir = "./model_checkpoints/epoch_1") := by
  refine ⟨?_, fun e => rfl, fun e => ⟨rfl, rfl⟩, fun e => rfl, fun e => ?_, ?_⟩
  · have h := goEpochs_ok_ckpts ops loader vb n 0 st st' hrun
    rw [h, List.range_eq_range']
  · refine ⟨?_, ?_⟩ <;> simp [checkpointFor]
  · refine ⟨epochOutState ops [b] vb 0 st,
      train_model_one ops [b] vb st (List.cons_ne_nil _ _) hvb, ?_,
      epochOutState_ckpts ops [b] vb 0 st, by decide⟩
    rw [epochOutState_optSteps, trainPhase_optSteps]
    rfl

/-- C6 witness: a concrete one-epoch run. -/
theorem claim6_checkpoint_per_epoch_witness :
    checkpointsOf demoOut.events
      = checkpointsOf demoState.events ++ (List.range 1).map checkpointFor ∧
    (checkpointFor 5).saved = [SavedItem.model, SavedItem.processor] := by
  have h := claim6_checkpoint_per_epoch demoOps (fun _ => [demoBatch])
    [demoBatch] 1 demoState demoOut demoBatch
    (train_model_one demoOps [demoBatch] [demoBatch] demoState
      (List.cons_ne_nil _ _) (List.cons_ne_nil _ _))
    (List.cons_ne_nil _ _)
  exact ⟨h.1, h.2.2.2.1 5⟩

/-- C7: the train/validation split is the once-computed `data_split` of
the data; across epochs the validation loader yields the identical list
every time (no shuffling), while the shuffling training loader only
permutes the fixed training split, so membership in the training and
validation sets never changes across epochs. -/
theorem claim7_split_fixed_across_epochs {B : Type} (σ : Nat → List B → List B)
    (data : List B) (hσ : ∀ e l, (σ e l).Perm l) :
    (∀ e, val_loader (data_split data).2 e = (data_split data).2) ∧
    (∀ e e', val_loader (data_split data).2 e = val_loader (data_split data).2 e') ∧
    (∀ e, (train_loader σ (data_split data).1 e).Perm (data_split data).1) ∧
    (∀ x e, x ∈ train_loader σ (data_split data).1 e ↔ x ∈ (data_split data).1) ∧
    (∀ x e e',
        (x ∈ train_loader σ (data_split data).1 e ↔
         x ∈ train_loader σ (data_split data).1 e')) := by
  refine ⟨fun e => rfl, fun e e' => rfl, fun e => hσ e _, ?_, ?_⟩
  · intro x e
    exact (hσ e _).mem_iff
  · intro x e e'
    exact (hσ e _).mem_iff.trans ((hσ e' _).mem_iff).symm

/-- C7 witness: a reversing shuffle on a concrete dataset. -/
theorem claim7_split_fixed_across_epochs_witness :
    (∀ e, val_loader (data_split ([1, 2, 3] : List Nat)).2 e
        = (data_split ([1, 2, 3] : List Nat)).2) ∧
    (∀ x e, x ∈ train_loader (fun _ l => l.reverse)
          (data_split ([1, 2, 3] : List Nat)).1 e
        ↔ x ∈ (data_split ([1, 2, 3] : List Nat)).1) := by
  have h := claim7_split_fixed_across_epochs (fun _ l => l.reverse)
    ([1, 2, 3] : List Nat) (fun e l => l.reverse_perm)
  exact ⟨h.1, h.2.2.2.1⟩

end Florence2
